import Mathlib

/-!
Verification of the action-sequence engine of `a_.py` (a mouse/keyboard
automation tool).  The Python functions are shallowly embedded as pure Lean
functions producing traces of effects issued to the external input-capability
provider (pynput).  Machine reals used by the source for time values and
interpolation are modelled as rationals; Python's `int()` truncation is
modelled by `pyInt`.  Print statements are modelled as `Effect.log` only where
the behaviour under scrutiny mentions them (the "Released ... key" lines);
purely informational progress prints are not part of the trace model.
-/

/-- Mouse buttons of the provider (`pynput.mouse.Button`). -/
inductive MButton
  | left
  | right
deriving DecidableEq, Repr

/-- One observable effect issued by the tool to the input-capability
provider, plus `sleep` for elapsed time and `log` for the key-release
log lines. -/
inductive Effect
  | setPos (x y : Int)
  | press (b : MButton)
  | release (b : MButton)
  | scroll (amount : ℚ)
  | keyDown (k : String)
  | keyUp (k : String)
  | sleep (d : ℚ)
  | log (s : String)
deriving DecidableEq, Repr

/-- Python `int()` applied to a rational: truncation toward zero. -/
def pyInt (q : ℚ) : Int :=
  if 0 ≤ q then ⌊q⌋ else ⌈q⌉

/-- Quadratic easing function, from `ease_in_out_quad` (src/a_.py lines
741-746): `2*t*t` below one half, else `-0.5*((2*t-2)^2 - 2)`. -/
def ease_in_out_quad (t : ℚ) : ℚ :=
  if t < 1/2 then 2 * t * t
  else -(1/2) * ((2 * t - 2) * (2 * t - 2) - 2)

/-- Intermediate coordinate of the motion planner at eased time `t`
(src/a_.py lines 752-756): `start + delta * ease(t)`. -/
def interp (start delta t : ℚ) : ℚ :=
  start + delta * ease_in_out_quad t

/-- Step count recomputed by `smooth_move` (src/a_.py line 733):
`min(max(int(distance / 5), 50), 150)` where `distance = sqrt(dx^2+dy^2)`.
Since `⌊sqrt d / 5⌋ = Nat.sqrt (d / 25)` for a nonnegative integer `d`
(25*m^2 ≤ d ↔ m^2 ≤ d/25, and d < 25*(m+1)^2 ↔ d/25 < (m+1)^2), the
truncated quotient of the Euclidean distance by 5 is `Nat.sqrt` of the
squared distance divided by 25. -/
def recomputed_steps (dx dy : Int) : Nat :=
  min (max (Nat.sqrt ((dx * dx + dy * dy).toNat / 25)) 50) 150

/-- Embedding of `smooth_move` (src/a_.py lines 713-765).  The `steps`
parameter is shadowed by the recomputed step count (line 733); the loop
(lines 749-762) writes a truncated eased position and sleeps
`duration / steps` on every iteration `step = 0 .. steps`; line 765 then
writes the exact end position. -/
def smooth_move (start_x start_y end_x end_y : Int) (duration : ℚ)
    (steps : Nat) : List Effect :=
  let dx := end_x - start_x
  let dy := end_y - start_y
  let n := recomputed_steps dx dy
  let sleep_time := duration / (n : ℚ)
  ((List.range (n + 1)).flatMap (fun step =>
    let t : ℚ := (step : ℚ) / (n : ℚ)
    [Effect.setPos (pyInt (interp (start_x : ℚ) (dx : ℚ) t))
       (pyInt (interp (start_y : ℚ) (dy : ℚ) t)),
     Effect.sleep sleep_time]))
  ++ [Effect.setPos end_x end_y]

/-- Button resolution of `perform_click` (src/a_.py line 1416):
`Button.left if button == 'left' else Button.right`; any value other than
the string `left` (including `None`) selects the right button. -/
def clickBtn (button : Option String) : MButton :=
  if button = some "left" then MButton.left else MButton.right

/-- Embedding of `perform_click` (src/a_.py lines 1404-1429): when `double`
is set, `count` becomes 2 and `interval` 0.1; the loop presses and releases
`count` times, sleeping `interval` except after the last click; a positive
`delay_after` adds one final sleep. -/
def perform_click (button : Option String) (count : Nat) (interval : ℚ)
    (double : Bool) (delay_after : ℚ) : List Effect :=
  let btn := clickBtn button
  let count := if double then 2 else count
  let interval := if double then (1 : ℚ)/10 else interval
  ((List.range count).flatMap (fun i =>
    [Effect.press btn, Effect.release btn]
    ++ (if i < count - 1 then [Effect.sleep interval] else [])))
  ++ (if 0 < delay_after then [Effect.sleep delay_after] else [])

/-- Embedding of `perform_scroll` (src/a_.py lines 1432-1450): the amount is
split into `steps` increments of `amount / steps`; the loop scrolls and then
sleeps `interval` on every iteration (including the last); a positive
`delay_after` adds one final sleep. -/
def perform_scroll (amount : ℚ) (steps : Nat) (interval : ℚ)
    (delay_after : ℚ) : List Effect :=
  let step_amount := amount / (steps : ℚ)
  ((List.range steps).flatMap (fun _ =>
    [Effect.scroll step_amount, Effect.sleep interval]))
  ++ (if 0 < delay_after then [Effect.sleep delay_after] else [])

/-- Effect classifier used to state trace facts about sleeps. -/
def Effect.isSleep : Effect → Bool
  | Effect.sleep _ => true
  | _ => false

/-- Effect classifier used to state trace facts about position writes. -/
def Effect.isSetPos : Effect → Bool
  | Effect.setPos _ _ => true
  | _ => false

/-- An event as held in memory during recording: a payload (the event's other
dict fields) plus the absolute capture time stored under the `time` key
(src/a_.py lines 1016-1179). -/
structure TimedEvent (α : Type) where
  payload : α
  time : ℚ
deriving DecidableEq, Repr

/-- An event as persisted: the payload plus the relative `delay`; the
absolute `time` field has been deleted (src/a_.py lines 1216-1218). -/
structure SavedEvent (α : Type) where
  payload : α
  delay : ℚ
deriving DecidableEq, Repr

/-- Helper for the delay-assignment loop at src/a_.py lines 1211-1212: each
event receives `delay = time - previous event's time`. -/
def addDelaysFrom {α : Type} (prev : ℚ) : List (TimedEvent α) → List (SavedEvent α)
  | [] => []
  | e :: es => ⟨e.payload, e.time - prev⟩ :: addDelaysFrom e.time es

/-- Embedding of the recorder's post-processing (src/a_.py lines 1210-1218):
`events[i].delay = events[i].time - events[i-1].time` for `i ≥ 1`, the first
event's delay is set to 0, and every absolute `time` field is deleted before
serialization. -/
def postprocess_events {α : Type} : List (TimedEvent α) → List (SavedEvent α)
  | [] => []
  | e :: es => ⟨e.payload, 0⟩ :: addDelaysFrom e.time es

/-- Split a character list at every semicolon, as Python `str.split(';')`
does (src/a_.py line 1614). -/
def splitSemis : List Char → List (List Char)
  | [] => [[]]
  | c :: cs =>
      if c = ';' then [] :: splitSemis cs
      else
        match splitSemis cs with
        | t :: ts => (c :: t) :: ts
        | [] => [[c]]

/-- Strip leading and trailing whitespace, as Python `str.strip()` does. -/
def trimChars (cs : List Char) : List Char :=
  ((cs.dropWhile Char.isWhitespace).reverse.dropWhile Char.isWhitespace).reverse

/-- ASCII lower-casing of one character, as Python `str.lower()` does on the
tool's ASCII verbs. -/
def charToLower (c : Char) : Char :=
  if 'A' ≤ c ∧ c ≤ 'Z' then Char.ofNat (c.toNat + 32) else c

/-- ASCII lower-casing of a string. -/
def strLower (s : String) : String :=
  String.mk (s.toList.map charToLower)

/-- Scanner state of the tokenizer: outside quotes, inside single quotes, or
inside double quotes. -/
inductive QuoteState
  | noQuote
  | inSingle
  | inDouble
deriving DecidableEq, Repr

/-- Worker for `tokenize`: characters still to scan, quote state, and the
current token under construction (in reverse; `none` when between tokens).
An unterminated quote raises `ValueError`, as `shlex.split` does. -/
def shlexGo : List Char → QuoteState → Option (List Char) → Except String (List String)
  | [], QuoteState.noQuote, none => Except.ok []
  | [], QuoteState.noQuote, some cur => Except.ok [String.mk cur.reverse]
  | [], _, _ => Except.error "ValueError: No closing quotation"
  | c :: cs, QuoteState.noQuote, cur =>
      if c = '\'' then shlexGo cs QuoteState.inSingle (some (cur.getD []))
      else if c = '"' then shlexGo cs QuoteState.inDouble (some (cur.getD []))
      else if c.isWhitespace then
        match cur with
        | none => shlexGo cs QuoteState.noQuote none
        | some cur => do
            let rest ← shlexGo cs QuoteState.noQuote none
            Except.ok (String.mk cur.reverse :: rest)
      else shlexGo cs QuoteState.noQuote (some (c :: cur.getD []))
  | c :: cs, QuoteState.inSingle, cur =>
      if c = '\'' then shlexGo cs QuoteState.noQuote (some (cur.getD []))
      else shlexGo cs QuoteState.inSingle (some (c :: cur.getD []))
  | c :: cs, QuoteState.inDouble, cur =>
      if c = '"' then shlexGo cs QuoteState.noQuote (some (cur.getD []))
      else shlexGo cs QuoteState.inDouble (some (c :: cur.getD []))

/-- Model of `shlex.split` as used at src/a_.py line 1620: whitespace-separated
tokens with single- and double-quote grouping (the tool's inputs contain no
backslash escapes, which are not modelled). -/
def tokenize (s : String) : Except String (List String) :=
  shlexGo s.toList QuoteState.noQuote none

/-- Value of a list of decimal digit characters. -/
def digitsToNat (ds : List Char) : Nat :=
  ds.foldl (fun n c => 10 * n + (c.toNat - '0'.toNat)) 0

/-- Model of Python `int(s)`: optional surrounding whitespace, optional sign,
one or more decimal digits; anything else raises `ValueError`
(digit-group underscores are not modelled — the tool's inputs have none). -/
def pyParseInt (s : String) : Except String Int :=
  let core : List Char × Int :=
    match trimChars s.toList with
    | '+' :: cs => (cs, 1)
    | '-' :: cs => (cs, -1)
    | cs => (cs, 1)
  if core.1 ≠ [] ∧ core.1.all Char.isDigit then
    Except.ok (core.2 * (digitsToNat core.1 : Int))
  else
    Except.error ("ValueError: invalid literal for int() with base 10: " ++ s)

/-- Model of Python `float(s)` for plain decimal forms: optional sign, digits
with an optional fractional part; exponents, infinities and NaN are not
modelled (the tool's inputs are plain decimals). -/
def pyParseFloat (s : String) : Except String ℚ :=
  let signed : List Char × ℚ :=
    match trimChars s.toList with
    | '+' :: cs => (cs, 1)
    | '-' :: cs => (cs, -1)
    | cs => (cs, 1)
  let cs := signed.1
  let ip := cs.takeWhile Char.isDigit
  match cs.dropWhile Char.isDigit with
  | [] =>
      if ip ≠ [] then Except.ok (signed.2 * (digitsToNat ip : ℚ))
      else Except.error ("ValueError: could not convert string to float: " ++ s)
  | '.' :: rest2 =>
      let fp := rest2.takeWhile Char.isDigit
      if rest2.dropWhile Char.isDigit = [] ∧ (ip ≠ [] ∨ fp ≠ []) then
        Except.ok (signed.2 * ((digitsToNat ip : ℚ)
          + (digitsToNat fp : ℚ) / ((10 : ℚ) ^ fp.length)))
      else Except.error ("ValueError: could not convert string to float: " ++ s)
  | _ => Except.error ("ValueError: could not convert string to float: " ++ s)

/-- One parsed action dictionary produced by `parse_simple_sequence`
(src/a_.py lines 1603-1714).  `move` carries the `smooth` flag of the `move`
verb; `moveDrag` is the `{'type': 'move', ..., 'drag': True}` dict produced by
the `drag` and `drag_from` verbs (with no `smooth` key); optional fields are
`none` when the corresponding dict key is absent. -/
inductive PAction
  | move (x y : Int) (smooth : Bool)
  | moveDrag (x y : Int)
  | click (button : String) (count : Int)
  | key (key : String) (modifiers : Option (List String))
  | wait (seconds : ℚ)
  | typeText (text : String) (interval : Option ℚ)
  | scroll (amount : Int) (steps : Option Int) (interval : Option ℚ)
deriving DecidableEq, Repr

/-- Modifier names recognised by the `key` verb (src/a_.py lines 1650-1651). -/
def modifierNames : List String :=
  ["ctrl", "control", "alt", "shift", "cmd", "command", "win", "windows"]

/-- Interval scan of the `type` verb (src/a_.py lines 1695-1697): every
`--interval` token followed by another token overwrites the interval with the
parse of that next token. -/
def parseTypeInterval (params : List String) : Except String (Option ℚ) :=
  params.enum.foldlM (fun acc q =>
    if q.2 = "--interval" ∧ q.1 + 1 < params.length then do
      let v ← pyParseFloat (params.getD (q.1 + 1) "")
      pure (some v)
    else pure acc) none

/-- Option scan of the `scroll` verb (src/a_.py lines 1707-1711): `--steps`
takes an integer, otherwise `--interval` takes a float; later occurrences
overwrite earlier ones. -/
def parseScrollOpts (params : List String) :
    Except String (Option Int × Option ℚ) :=
  params.enum.foldlM (fun acc q =>
    if q.2 = "--steps" ∧ q.1 + 1 < params.length then do
      let v ← pyParseInt (params.getD (q.1 + 1) "")
      pure (some v, acc.2)
    else if q.2 = "--interval" ∧ q.1 + 1 < params.length then do
      let v ← pyParseFloat (params.getD (q.1 + 1) "")
      pure (acc.1, some v)
    else pure acc) (none, none)

/-- Dispatch on one command's lower-cased verb (src/a_.py lines 1624-1712).
A verb with too few arguments contributes no action; an unrecognised verb
contributes no action and no diagnostic; a malformed numeric argument
propagates the `ValueError` of `int()`/`float()`. -/
def parseCommand (action_type : String) (params : List String) :
    Except String (List PAction) :=
  if action_type = "move" then
    if params.length ≥ 2 then do
      let x ← pyParseInt (params.getD 0 "")
      let y ← pyParseInt (params.getD 1 "")
      pure [PAction.move x y (params.contains "--smooth")]
    else pure []
  else if action_type = "click" then do
    let button := match params with
      | b :: _ => if b = "left" ∨ b = "right" then b else "left"
      | [] => "left"
    let count ← if params.length > 1 then pyParseInt (params.getD 1 "")
      else pure (1 : Int)
    pure [PAction.click button count]
  else if action_type = "key" then
    match params with
    | [] => pure []
    | k :: mods =>
        pure [PAction.key k
          (if params.length > 1
           then some (mods.filter (fun m => modifierNames.contains m))
           else none)]
  else if action_type = "wait" then
    match params with
    | [] => pure []
    | q :: _ => do
        let s ← pyParseFloat q
        pure [PAction.wait s]
  else if action_type = "drag" then
    if params.length ≥ 2 then do
      let x ← pyParseInt (params.getD 0 "")
      let y ← pyParseInt (params.getD 1 "")
      pure [PAction.moveDrag x y]
    else pure []
  else if action_type = "drag_from" then
    if params.length ≥ 4 then do
      let x1 ← pyParseInt (params.getD 0 "")
      let y1 ← pyParseInt (params.getD 1 "")
      let x2 ← pyParseInt (params.getD 2 "")
      let y2 ← pyParseInt (params.getD 3 "")
      pure [PAction.move x1 y1 false, PAction.moveDrag x2 y2]
    else pure []
  else if action_type = "type" then
    match params with
    | [] => pure []
    | text :: _ => do
        let iv ← parseTypeInterval params
        pure [PAction.typeText text iv]
  else if action_type = "scroll" then
    match params with
    | [] => pure []
    | a :: _ => do
        let amount ← pyParseInt a
        let opts ← parseScrollOpts params
        pure [PAction.scroll amount opts.1 opts.2]
  else pure []

/-- Loop body of `parse_simple_sequence` over the stripped `;`-separated
commands (src/a_.py lines 1616-1714): empty commands are skipped, each other
command is tokenized and dispatched on its verb, and the resulting actions
are appended; an uncaught `ValueError` aborts the whole parse. -/
def parseCommands : List String → Except String (List PAction)
  | [] => Except.ok []
  | cmd :: rest =>
      if cmd = "" then parseCommands rest
      else do
        let parts ← tokenize cmd
        match parts with
        | [] => parseCommands rest
        | verb :: params => do
            let acts ← parseCommand (strLower verb) params
            let restActs ← parseCommands rest
            pure (acts ++ restActs)

/-- Embedding of `parse_simple_sequence` (src/a_.py lines 1603-1714): split
on `;`, strip each command, then process the commands in order. -/
def parse_simple_sequence (s : String) : Except String (List PAction) :=
  parseCommands ((splitSemis s.toList).map (fun cs => String.mk (trimChars cs)))

/-- A detected monitor (src/a_.py `get_all_monitors`): index, origin, size,
primary flag.  Monitor records come from the external geometry provider. -/
structure Monitor where
  index : Int
  x : Int
  y : Int
  width : Int
  height : Int
  primary : Bool
deriving DecidableEq, Repr

/-- Embedding of `convert_to_global_coordinates` (src/a_.py lines 615-648):
offset by the selected monitor's origin; with no index, use the primary
monitor, else the first; with an unknown index, keep the coordinates. -/
def convert_to_global_coordinates (monitors : List Monitor) (x y : Int)
    (monitor_index : Option Int) : Int × Int :=
  match monitor_index with
  | none =>
      match monitors.find? (fun m => m.primary) with
      | some m => (x + m.x, y + m.y)
      | none =>
          match monitors with
          | m :: _ => (x + m.x, y + m.y)
          | [] => (x, y)
  | some idx =>
      match monitors.find? (fun m => m.index == idx) with
      | some m => (x + m.x, y + m.y)
      | none => (x, y)

/-- Python `x or 'left'` on an optional string: `None` and the empty string
are falsy. -/
def strOr (o : Option String) (d : String) : String :=
  match o with
  | some s => if s = "" then d else s
  | none => d

/-- Embedding of the modifier name table of `hold_key` (src/a_.py lines
1568-1577), keyed case-insensitively; the result is the provider key object
that gets pressed, `none` for an unsupported name. -/
def keyMap (k : String) : Option String :=
  let kl := strLower k
  if kl = "cmd" ∨ kl = "command" ∨ kl = "win" ∨ kl = "windows" then some "cmd"
  else if kl = "ctrl" ∨ kl = "control" then some "ctrl"
  else if kl = "alt" then some "alt"
  else if kl = "shift" then some "shift"
  else none

/-- Embedding of `hold_key` (src/a_.py lines 1555-1588): press the mapped
modifier and return its key object, or warn (not modelled in the trace) and
return `None`. -/
def hold_key (k : String) : List Effect × Option String :=
  match keyMap k with
  | some obj => ([Effect.keyDown obj], some obj)
  | none => ([], none)

/-- Embedding of `release_key` (src/a_.py lines 1591-1600): release the key
object unless it is `None`. -/
def release_key : Option String → List Effect
  | some obj => [Effect.keyUp obj]
  | none => []

/-- Position of a modifier name in the canonical hold order of
`hold_multiple_keys` (src/a_.py lines 1464-1468); unknown names sort last. -/
def modifier_order_idx (k : String) : Nat :=
  ["ctrl", "alt", "shift", "cmd", "win", "windows"].indexOf (strLower k)

/-- Stable insertion into a list sorted by `modifier_order_idx`, placed after
equal keys — composing these yields the stable sort Python's `sorted` uses. -/
def insertByIdx (x : String) : List String → List String
  | [] => [x]
  | y :: ys =>
      if modifier_order_idx y ≤ modifier_order_idx x then y :: insertByIdx x ys
      else x :: y :: ys

/-- Update-or-append on an insertion-ordered string dict, as Python dict
assignment behaves. -/
def dictSetS (d : List (String × String)) (k v : String) :
    List (String × String) :=
  if d.any (fun q => q.1 == k) then
    d.map (fun q => if q.1 == k then (k, v) else q)
  else d ++ [(k, v)]

/-- Embedding of `hold_multiple_keys` (src/a_.py lines 1453-1475): sort the
modifier names into canonical order, hold each, and record the successful
ones (insertion-ordered, as a Python dict). -/
def hold_multiple_keys (keys : List String) : List Effect × List (String × String) :=
  let sorted_keys := keys.foldl (fun acc k => insertByIdx k acc) []
  sorted_keys.foldl (fun acc key =>
    match hold_key key with
    | (tr, some obj) => (acc.1 ++ tr, dictSetS acc.2 key obj)
    | (tr, none) => (acc.1 ++ tr, acc.2)) ([], [])

/-- The log line printed when a held key is released (src/a_.py lines 811,
816, 888, 1488). -/
def releasedMsg (k : String) : String := "Released " ++ k ++ " key"

/-- Embedding of `release_multiple_keys` (src/a_.py lines 1478-1488): release
in reverse order of holding, logging each release. -/
def release_multiple_keys (held : List (String × String)) : List Effect :=
  held.reverse.flatMap (fun q =>
    [Effect.keyUp q.2, Effect.log (releasedMsg q.1)])

/-- Embedding of `perform_key_press` (src/a_.py lines 1491-1532): resolve the
key (a provider key attribute or a single literal character, else warn and
return), hold the modifiers, press/release `count` times sleeping `interval`
between presses but not after the last, release the modifiers (in a `finally`
block), then sleep `delay_after` when positive.  `hasKeyAttr` models
`hasattr(Key, key)` of the external pynput library. -/
def perform_key_press (hasKeyAttr : String → Bool) (key : String)
    (modifiers : Option (List String)) (count : Nat) (interval : ℚ)
    (delay_after : ℚ) : List Effect :=
  if hasKeyAttr key ∨ key.length = 1 then
    let hm := match modifiers with
      | some mods => if mods = [] then ([], []) else hold_multiple_keys mods
      | none => ([], [])
    hm.1
    ++ ((List.range count).flatMap (fun i =>
        [Effect.keyDown key, Effect.keyUp key]
        ++ (if i < count - 1 then [Effect.sleep interval] else [])))
    ++ release_multiple_keys hm.2
    ++ (if 0 < delay_after then [Effect.sleep delay_after] else [])
  else []

/-- Embedding of `perform_type` (src/a_.py lines 1535-1552): press/release
each character, sleeping `interval` after every character (including the
last), then sleep `delay_after` when positive. -/
def perform_type (text : String) (interval : ℚ) (delay_after : ℚ) : List Effect :=
  (text.toList.flatMap (fun c =>
    [Effect.keyDown (String.mk [c]), Effect.keyUp (String.mk [c]),
     Effect.sleep interval]))
  ++ (if 0 < delay_after then [Effect.sleep delay_after] else [])

/-- Python truthiness of an optional string: `None` and `''` are falsy. -/
def truthyStr : Option String → Bool
  | some s => !(s == "")
  | none => false

/-- Embedding of `move_mouse` (src/a_.py lines 1343-1401).  `startPos` models
the `mouse.position` read at line 1377 (the provider's current pointer
position) and `monitors` the geometry provider.  The `check_bounds` parameter
is accepted but — exactly as in the source body — never read: no bounds
check, prompt, or confirmation exists in the function. -/
def move_mouse (startPos : Int × Int) (monitors : List Monitor) (x y : Int)
    (delay : ℚ) (check_bounds : Bool) (smooth : Bool) (smooth_duration : ℚ)
    (smooth_steps : Nat) (click : Option String) (click_count : Nat)
    (click_interval : ℚ) (double_click : Bool) (click_delay : ℚ)
    (drag_to : Option (Int × Int)) (drag_smooth : Bool)
    (click_before_drag click_after_drag : Bool)
    (monitor_index : Option Int) : List Effect :=
  let g := if monitor_index.isSome
    then convert_to_global_coordinates monitors x y monitor_index
    else (x, y)
  (if 0 < delay then [Effect.sleep delay] else [])
  ++ (if smooth
      then smooth_move startPos.1 startPos.2 g.1 g.2 smooth_duration smooth_steps
      else [Effect.setPos g.1 g.2])
  ++ (if truthyStr click || double_click
      then perform_click click click_count click_interval double_click click_delay
      else [])
  ++ (match drag_to with
      | some q =>
          (if click_before_drag
           then perform_click (some (strOr click "left")) 1 (1/10) false 0
           else [])
          ++ (if drag_smooth then smooth_move g.1 g.2 q.1 q.2 1 100
              else [Effect.setPos q.1 q.2])
          ++ (if click_after_drag
              then perform_click (some (strOr click "left")) 1 (1/10) false 0
              else [])
      | none => [])

/-- Execution environment: the external collaborators of the sequence
executor.  `winFound i k` tells whether the window-lookup for the action at
index `i` succeeds on attempt `k` (the platform window provider);
`interrupt i` tells whether a `KeyboardInterrupt` arrives at action `i`;
`readPos i` is the pointer position the provider reports at action `i`;
`hasKeyAttr` models `hasattr(Key, name)` of pynput; `monitors` is the
geometry provider's monitor list. -/
structure Env where
  winFound : Nat → Nat → Bool
  interrupt : Nat → Bool
  readPos : Nat → Int × Int
  hasKeyAttr : String → Bool
  monitors : List Monitor

/-- One action dictionary of a sequence, as consumed by `perform_sequence`
(src/a_.py lines 787-877), with the dict-lookup defaults already resolved;
`Option` fields are `none` when the key is absent. -/
inductive EAction
  | window (title process : Option String) (wait : ℚ) (not_required : Bool)
      (retry_count : Nat)
  | hold_key (key : Option String)
  | release_key (key : Option String) (all : Bool)
  | move (x y : Int) (delay : ℚ) (check_bounds : Bool) (smooth : Bool)
      (smooth_duration : ℚ) (smooth_steps : Nat) (click : Option String)
      (click_count : Nat) (click_interval : ℚ) (double_click : Bool)
      (click_delay : ℚ) (drag_to : Option (Int × Int)) (drag_smooth : Bool)
      (click_before_drag click_after_drag : Bool) (monitor_index : Option Int)
  | click (button : String) (count : Nat) (interval : ℚ) (double : Bool)
      (delay_after : ℚ)
  | scroll (amount : ℚ) (steps : Nat) (interval : ℚ) (delay_after : ℚ)
  | key (key : String) (modifiers : Option (List String)) (count : Nat)
      (interval : ℚ) (delay_after : ℚ)
  | typeText (text : String) (interval : ℚ) (delay_after : ℚ)
  | wait (seconds : ℚ)
deriving DecidableEq, Repr

/-- An action together with its `delay_after_action` value
(`action.get('delay_after_action', 0)` at src/a_.py line 880). -/
structure SeqAction where
  act : EAction
  delay_after_action : ℚ
deriving DecidableEq, Repr

/-- Embedding of `validate_sequence_action` (src/a_.py lines 891-918) on the
typed action.  The `required_params` table at lines 893-902 has no entry for
`hold_key` or `release_key`, so for those types line 904-905 raises
`ValueError("Unknown action type: ...")` — `perform_sequence` catches it and
skips the action.  A window action fails unless it has a truthy title or
process; every other typed action carries its required fields. -/
def validate_sequence_action : EAction → Bool
  | EAction.window title process _ _ _ => truthyStr title || truthyStr process
  | EAction.hold_key _ => false
  | EAction.release_key _ _ => false
  | _ => true

/-- Result of `find_and_activate_window`: window activated, window not found
(returned `False`), or `sys.exit(1)` (src/a_.py line 290). -/
inductive WinResult
  | activated
  | notFound
  | fatalExit
deriving DecidableEq, Repr

/-- Retry loop of `find_and_activate_window` (src/a_.py lines 255-285) on a
supported platform: before every attempt after the first, sleep 1 second;
on success, sleep `wait` when positive and stop.  The second component tells
whether a window was found within the given number of attempts. -/
def faawGo (found : Nat → Bool) (wait : ℚ) : Nat → Nat → List Effect × Bool
  | _, 0 => ([], false)
  | attempt, fuel + 1 =>
      let pre := if 0 < attempt then [Effect.sleep 1] else []
      if found attempt then
        (pre ++ (if 0 < wait then [Effect.sleep wait] else []), true)
      else
        let r := faawGo found wait (attempt + 1) fuel
        (pre ++ r.1, r.2)

/-- Embedding of `find_and_activate_window` (src/a_.py lines 239-292) on a
supported platform: `retry_count` attempts with a fixed 1-second backoff; on
total failure, `required` exits the process via `sys.exit(1)` (fatal), else
the function returns `False`. -/
def find_and_activate_window (found : Nat → Bool) (wait : ℚ) (required : Bool)
    (retry_count : Nat) : List Effect × WinResult :=
  let r := faawGo found wait 0 retry_count
  if r.2 then (r.1, WinResult.activated)
  else if required then (r.1, WinResult.fatalExit)
  else (r.1, WinResult.notFound)

/-- The held-key dict of `perform_sequence`: insertion-ordered map from the
held key name to the key object returned by `hold_key` (which is `None` for
an unsupported name — the source stores it anyway, src/a_.py line 803). -/
abbrev HeldDict := List (String × Option String)

/-- Python dict assignment `d[k] = v`: overwrite in place, else append. -/
def dictSet (d : HeldDict) (k : String) (v : Option String) : HeldDict :=
  if d.any (fun q => q.1 == k) then
    d.map (fun q => if q.1 == k then (k, v) else q)
  else d ++ [(k, v)]

/-- Python `del d[k]`. -/
def dictRemove (d : HeldDict) (k : String) : HeldDict :=
  d.filter (fun q => !(q.1 == k))

/-- The release-and-log loop over a held-key dict, used both by the
`release_key all` branch (src/a_.py lines 814-817) and by the end-of-sequence
cleanup (lines 886-888): release each stored key object (a no-op for `None`)
and log the release. -/
def cleanupHeld (held : HeldDict) : List Effect :=
  held.flatMap (fun q =>
    release_key q.2 ++ [Effect.log (releasedMsg q.1)])

/-- How one action's execution steps the sequence: continue, `break` out of
the loop, or `sys.exit` (fatal). -/
inductive StepRes
  | ok
  | brk
  | fatal
deriving DecidableEq, Repr

/-- Execution of one validated action by `perform_sequence` (src/a_.py lines
787-877): the trace emitted, the updated held-key dict, and the step result. -/
def execAction (env : Env) (i : Nat) (a : EAction) (held : HeldDict) :
    List Effect × HeldDict × StepRes :=
  match a with
  | EAction.window _ _ w nr rc =>
      let r := find_and_activate_window (env.winFound i) w (!nr) rc
      match r.2 with
      | WinResult.activated => (r.1, held, StepRes.ok)
      | WinResult.fatalExit => (r.1, held, StepRes.fatal)
      | WinResult.notFound => (r.1, held, if !nr then StepRes.brk else StepRes.ok)
  | EAction.hold_key key =>
      match key with
      | some k =>
          if k = "" then ([], held, StepRes.ok)
          else
            let r := hold_key k
            (r.1, dictSet held k r.2, StepRes.ok)
      | none => ([], held, StepRes.ok)
  | EAction.release_key key all =>
      match key with
      | some k =>
          if k ≠ "" ∧ held.any (fun q => q.1 == k) then
            (release_key (((held.find? (fun q => q.1 == k)).map Prod.snd).getD none)
              ++ [Effect.log (releasedMsg k)],
             dictRemove held k, StepRes.ok)
          else if all then (cleanupHeld held, [], StepRes.ok)
          else ([], held, StepRes.ok)
      | none =>
          if all then (cleanupHeld held, [], StepRes.ok)
          else ([], held, StepRes.ok)
  | EAction.move x y delay cb smooth sd ss click cc ci dc cd dt ds cbd cad mi =>
      (move_mouse (env.readPos i) env.monitors x y delay cb smooth sd ss click
        cc ci dc cd dt ds cbd cad mi, held, StepRes.ok)
  | EAction.click b c iv d da => (perform_click (some b) c iv d da, held, StepRes.ok)
  | EAction.scroll am st iv da => (perform_scroll am st iv da, held, StepRes.ok)
  | EAction.key k mods c iv da =>
      (perform_key_press env.hasKeyAttr k mods c iv da, held, StepRes.ok)
  | EAction.typeText t iv da => (perform_type t iv da, held, StepRes.ok)
  | EAction.wait s => ([Effect.sleep s], held, StepRes.ok)

/-- Result of an entire sequence run: the loop completed (also after a
`break`), the process exited via `sys.exit(1)`, or a `KeyboardInterrupt`
propagated out of the (unguarded) loop. -/
inductive Outcome
  | completed
  | fatalExit
  | interrupted
deriving DecidableEq, Repr

/-- The action loop of `perform_sequence` (src/a_.py lines 777-883), from the
action at index `i` of a sequence of `total` actions.  A `KeyboardInterrupt`
at action `i` (modelled at the action boundary) propagates: the loop has no
`try`/`finally`, so nothing further runs.  An invalid action is reported and
skipped (lines 781-785).  After a successful action, `delay_after_action` is
slept when positive and the action is not the last (line 880). -/
def runFrom (env : Env) :
    List SeqAction → Nat → Nat → HeldDict → List Effect × HeldDict × Outcome
  | [], _, _, held => ([], held, Outcome.completed)
  | a :: rest, i, total, held =>
      if env.interrupt i then ([], held, Outcome.interrupted)
      else if validate_sequence_action a.act then
        match execAction env i a.act held with
        | (tr, held2, StepRes.fatal) => (tr, held2, Outcome.fatalExit)
        | (tr, held2, StepRes.brk) => (tr, held2, Outcome.completed)
        | (tr, held2, StepRes.ok) =>
            let d := if i < total - 1 ∧ 0 < a.delay_after_action
              then [Effect.sleep a.delay_after_action] else []
            let r2 := runFrom env rest (i + 1) total held2
            (tr ++ d ++ r2.1, r2.2.1, r2.2.2)
      else runFrom env rest (i + 1) total held

/-- Embedding of `perform_sequence` (src/a_.py lines 768-889): run the loop;
only when the loop finishes (normally or via `break`) does the trailing
cleanup at lines 885-888 release the still-held keys — a `sys.exit(1)` or a
`KeyboardInterrupt` bypasses it, since the loop is not wrapped in
`try`/`finally`. -/
def perform_sequence (env : Env) (actions : List SeqAction) :
    List Effect × Outcome :=
  let r := runFrom env actions 0 actions.length []
  match r.2.2 with
  | Outcome.completed => (r.1 ++ cleanupHeld r.2.1, Outcome.completed)
  | o => (r.1, o)

/-- Environment for the C1 counterexample: no interrupt arrives and every
external lookup is permissive. -/
def cexEnvC1 : Env :=
  ⟨fun _ _ => false, fun _ => false, fun _ => (0, 0), fun _ => false, []⟩

/-- The environment as seen one action later: all per-action oracles shifted
by one index. -/
def shiftEnv (env : Env) : Env :=
  ⟨fun i => env.winFound (i + 1), fun i => env.interrupt (i + 1),
   fun i => env.readPos (i + 1), env.hasKeyAttr, env.monitors⟩

/-- Environment for the C4 witness: the window is never found, no interrupt. -/
def wEnvC4 : Env :=
  ⟨fun _ _ => false, fun _ => false, fun _ => (0, 0), fun _ => false, []⟩

lemma range_flatMap_const {α : Type} (l : List α) :
    ∀ m : Nat, (List.range m).flatMap (fun _ => l) = (List.replicate m l).flatten := by
  intro m
  induction m with
  | zero => rfl
  | succ m ih =>
      rw [List.range_succ, List.replicate_succ', List.flatMap_append,
        List.flatten_append, ih]
      simp

lemma range_flatMap_singleton {α : Type} (g : Nat → α) :
    ∀ m : Nat, (List.range m).flatMap (fun i => [g i]) = (List.range m).map g := by
  intro m
  induction m with
  | zero => rfl
  | succ m ih =>
      rw [List.range_succ, List.flatMap_append, List.map_append, ih]
      simp

lemma filter_flatMap {α β : Type} (l : List α) (f : α → List β) (p : β → Bool) :
    (l.flatMap f).filter p = l.flatMap (fun a => (f a).filter p) := by
  induction l with
  | nil => rfl
  | cons a l ih => simp [List.flatMap_cons, List.filter_append, ih]

lemma flatten_replicate_singleton {α : Type} (a : α) :
    ∀ m : Nat, (List.replicate m [a]).flatten = List.replicate m a := by
  intro m
  induction m with
  | zero => rfl
  | succ m ih => simp [List.replicate_succ, ih]

lemma click_loop_closed (btn : MButton) (iv : ℚ) :
    ∀ n : Nat,
      ((List.range (n + 1)).flatMap (fun i =>
        [Effect.press btn, Effect.release btn]
        ++ (if i < (n + 1) - 1 then [Effect.sleep iv] else [])))
      = (List.replicate n [Effect.press btn, Effect.release btn, Effect.sleep iv]).flatten
        ++ [Effect.press btn, Effect.release btn] := by
  intro n
  rw [List.range_succ, List.flatMap_append]
  have h1 : ((List.range n).flatMap (fun i =>
      [Effect.press btn, Effect.release btn]
      ++ (if i < (n + 1) - 1 then [Effect.sleep iv] else [])))
      = (List.range n).flatMap
          (fun _ => [Effect.press btn, Effect.release btn, Effect.sleep iv]) := by
    apply List.flatMap_congr
    intro i hi
    have : i < n := List.mem_range.mp hi
    simp [this]
  rw [h1, range_flatMap_const]
  simp

/-- C5: for every invocation of `smooth_move`, the last position write in the
trace is exactly the requested end point, because of the final exact write at
src/a_.py line 765. -/
theorem smooth_move_final_write_exact (sx sy ex ey : Int) (duration : ℚ)
    (steps : Nat) :
    (smooth_move sx sy ex ey duration steps).getLast? = some (Effect.setPos ex ey) := by
  unfold smooth_move
  simp

/-- C10: `smooth_move` ignores its `steps` parameter: its trace is the same
for any two caller-supplied step counts, and the sleeps it performs are
exactly `recomputed_steps + 1` sleeps of `duration / recomputed_steps`,
where `recomputed_steps` clamps the truncated distance-over-5 into
`[50, 150]` (src/a_.py lines 733-736). -/
theorem smooth_move_ignores_steps_param (sx sy ex ey : Int) (duration : ℚ)
    (steps steps' : Nat) :
    smooth_move sx sy ex ey duration steps = smooth_move sx sy ex ey duration steps' ∧
    (smooth_move sx sy ex ey duration steps).filter Effect.isSleep
      = List.replicate (recomputed_steps (ex - sx) (ey - sy) + 1)
          (Effect.sleep (duration / ((recomputed_steps (ex - sx) (ey - sy) : Nat) : ℚ))) := by
  refine ⟨rfl, ?_⟩
  unfold smooth_move
  rw [List.filter_append, filter_flatMap]
  have h1 : (List.range (recomputed_steps (ex - sx) (ey - sy) + 1)).flatMap
      (fun step =>
        ([Effect.setPos
            (pyInt (interp (sx : ℚ) ((ex - sx : Int) : ℚ)
              ((step : ℚ) / ((recomputed_steps (ex - sx) (ey - sy) : Nat) : ℚ))))
            (pyInt (interp (sy : ℚ) ((ey - sy : Int) : ℚ)
              ((step : ℚ) / ((recomputed_steps (ex - sx) (ey - sy) : Nat) : ℚ)))),
          Effect.sleep (duration / ((recomputed_steps (ex - sx) (ey - sy) : Nat) : ℚ))]).filter
            Effect.isSleep)
      = (List.range (recomputed_steps (ex - sx) (ey - sy) + 1)).flatMap
          (fun _ =>
            [Effect.sleep (duration / ((recomputed_steps (ex - sx) (ey - sy) : Nat) : ℚ))]) := by
    apply List.flatMap_congr
    intro i _
    simp [Effect.isSleep, List.filter]
  rw [h1, range_flatMap_const, flatten_replicate_singleton]
  simp [Effect.isSleep, List.filter]

/-- C6: for `count ≥ 1`, `perform_click` issues exactly `count` press+release
pairs (exactly 2 with a 0.1 s interval when `double` is set), sleeps
`interval` between consecutive clicks but never after the last, and sleeps
`delay_after` once at the end exactly when it is positive. -/
theorem perform_click_trace_spec (button : Option String) (count : Nat)
    (interval : ℚ) (double : Bool) (delay_after : ℚ) (h : 1 ≤ count) :
    perform_click button count interval double delay_after
      = (List.replicate ((if double then 2 else count) - 1)
          [Effect.press (clickBtn button), Effect.release (clickBtn button),
           Effect.sleep (if double then (1 : ℚ)/10 else interval)]).flatten
        ++ [Effect.press (clickBtn button), Effect.release (clickBtn button)]
        ++ (if 0 < delay_after then [Effect.sleep delay_after] else []) := by
  have key : ∀ (c : Nat) (iv : ℚ), 1 ≤ c →
      ((List.range c).flatMap (fun i =>
        [Effect.press (clickBtn button), Effect.release (clickBtn button)]
        ++ (if i < c - 1 then [Effect.sleep iv] else [])))
      = (List.replicate (c - 1)
          [Effect.press (clickBtn button), Effect.release (clickBtn button),
           Effect.sleep iv]).flatten
        ++ [Effect.press (clickBtn button), Effect.release (clickBtn button)] := by
    intro c iv hc
    obtain ⟨m, rfl⟩ : ∃ m, c = m + 1 := ⟨c - 1, by omega⟩
    simpa using click_loop_closed (clickBtn button) iv m
  unfold perform_click
  cases double with
  | true =>
      show ((List.range 2).flatMap (fun i =>
          [Effect.press (clickBtn button), Effect.release (clickBtn button)]
          ++ (if i < 2 - 1 then [Effect.sleep ((1 : ℚ)/10)] else [])))
        ++ (if 0 < delay_after then [Effect.sleep delay_after] else [])
        = (List.replicate (2 - 1)
            [Effect.press (clickBtn button), Effect.release (clickBtn button),
             Effect.sleep ((1 : ℚ)/10)]).flatten
          ++ [Effect.press (clickBtn button), Effect.release (clickBtn button)]
          ++ (if 0 < delay_after then [Effect.sleep delay_after] else [])
      rw [key 2 ((1 : ℚ)/10) (by norm_num), List.append_assoc]
  | false =>
      show ((List.range count).flatMap (fun i =>
          [Effect.press (clickBtn button), Effect.release (clickBtn button)]
          ++ (if i < count - 1 then [Effect.sleep interval] else [])))
        ++ (if 0 < delay_after then [Effect.sleep delay_after] else [])
        = (List.replicate (count - 1)
            [Effect.press (clickBtn button), Effect.release (clickBtn button),
             Effect.sleep interval]).flatten
          ++ [Effect.press (clickBtn button), Effect.release (clickBtn button)]
          ++ (if 0 < delay_after then [Effect.sleep delay_after] else [])
      rw [key count interval h, List.append_assoc]

/-- Witness for the C6 theorem at button `left`, count 3, interval one half,
no double click, delay-after 1. -/
theorem perform_click_trace_spec_witness :
    perform_click (some "left") 3 (1/2) false 1
      = (List.replicate 2
          [Effect.press MButton.left, Effect.release MButton.left,
           Effect.sleep (1/2)]).flatten
        ++ [Effect.press MButton.left, Effect.release MButton.left]
        ++ [Effect.sleep 1] := by
  have h := perform_click_trace_spec (some "left") 3 (1/2) false 1 (by norm_num)
  simpa [clickBtn] using h

/-- C7 counterexample: `perform_scroll 100 10` with interval one hundredth
sleeps 10 times, not 9, and the last trace event is a sleep immediately after
the final scroll increment — the loop at src/a_.py lines 1445-1447 sleeps
after every increment, including the last. -/
theorem perform_scroll_sleeps_after_last :
    (perform_scroll 100 10 (1/100) 0).countP Effect.isSleep = 10 ∧
    (perform_scroll 100 10 (1/100) 0).getLast? = some (Effect.sleep (1/100)) :=
  ⟨rfl, rfl⟩

/-- C7 (amended): `perform_scroll` issues exactly `steps` scroll increments of
`amount / steps` units each, sleeping `interval` after every increment,
including the last, and sleeps `delay_after` once at the end exactly when it
is positive. -/
theorem perform_scroll_trace_spec (amount : ℚ) (steps : Nat)
    (interval delay_after : ℚ) :
    perform_scroll amount steps interval delay_after
      = (List.replicate steps
          [Effect.scroll (amount / (steps : ℚ)), Effect.sleep interval]).flatten
        ++ (if 0 < delay_after then [Effect.sleep delay_after] else []) := by
  show ((List.range steps).flatMap (fun _ =>
      [Effect.scroll (amount / (steps : ℚ)), Effect.sleep interval]))
    ++ (if 0 < delay_after then [Effect.sleep delay_after] else [])
    = _
  rw [range_flatMap_const]

/-- C8: the easing function maps 0 to 0 and 1 to 1, is monotone on `[0,1]`,
is symmetric about one half (`ease (1-t) = 1 - ease t`), and the motion
planner's intermediate position writes are the truncations of
`start + (end - start) * ease (step/steps)` for `step = 0 .. steps`,
followed by the exact final write. -/
theorem ease_in_out_quad_props :
    ease_in_out_quad 0 = 0 ∧ ease_in_out_quad 1 = 1 ∧
    (∀ s t : ℚ, 0 ≤ s → s ≤ t → t ≤ 1 → ease_in_out_quad s ≤ ease_in_out_quad t) ∧
    (∀ t : ℚ, 0 ≤ t → t ≤ 1 → ease_in_out_quad (1 - t) = 1 - ease_in_out_quad t) ∧
    (∀ (sx sy ex ey : Int) (duration : ℚ) (steps : Nat),
      (smooth_move sx sy ex ey duration steps).filter Effect.isSetPos
        = (List.range (recomputed_steps (ex - sx) (ey - sy) + 1)).map (fun (step : Nat) =>
            Effect.setPos
              (pyInt (interp (sx : ℚ) (((ex - sx : Int)) : ℚ)
                ((step : ℚ) / ((recomputed_steps (ex - sx) (ey - sy) : Nat) : ℚ))))
              (pyInt (interp (sy : ℚ) (((ey - sy : Int)) : ℚ)
                ((step : ℚ) / ((recomputed_steps (ex - sx) (ey - sy) : Nat) : ℚ)))))
          ++ [Effect.setPos ex ey]) := by
  refine ⟨by norm_num [ease_in_out_quad], by norm_num [ease_in_out_quad], ?_, ?_, ?_⟩
  · intro s t hs hst ht
    unfold ease_in_out_quad
    split_ifs with h1 h2 h2
    · nlinarith [mul_nonneg (by linarith : (0:ℚ) ≤ t - s) (by linarith : (0:ℚ) ≤ t + s)]
    · nlinarith [mul_nonneg hs (by linarith : (0:ℚ) ≤ 1/2 - s),
        mul_nonneg (by linarith : (0:ℚ) ≤ 1 - t) (by linarith : (0:ℚ) ≤ t - 1/2)]
    · linarith
    · nlinarith [mul_nonneg (by linarith : (0:ℚ) ≤ t - s) (by linarith : (0:ℚ) ≤ 2 - s - t)]
  · intro t ht0 ht1
    unfold ease_in_out_quad
    split_ifs with h1 h2 h2
    · linarith
    · ring
    · ring
    · have ht : t = 1/2 := by linarith
      subst ht
      norm_num
  · intro sx sy ex ey duration steps
    unfold smooth_move
    rw [List.filter_append, filter_flatMap]
    have h1 : (List.range (recomputed_steps (ex - sx) (ey - sy) + 1)).flatMap
        (fun step =>
          ([Effect.setPos
              (pyInt (interp (sx : ℚ) (((ex - sx : Int)) : ℚ)
                ((step : ℚ) / ((recomputed_steps (ex - sx) (ey - sy) : Nat) : ℚ))))
              (pyInt (interp (sy : ℚ) (((ey - sy : Int)) : ℚ)
                ((step : ℚ) / ((recomputed_steps (ex - sx) (ey - sy) : Nat) : ℚ)))),
            Effect.sleep (duration / ((recomputed_steps (ex - sx) (ey - sy) : Nat) : ℚ))]).filter
              Effect.isSetPos)
        = (List.range (recomputed_steps (ex - sx) (ey - sy) + 1)).flatMap
            (fun step =>
              [Effect.setPos
                (pyInt (interp (sx : ℚ) (((ex - sx : Int)) : ℚ)
                  ((step : ℚ) / ((recomputed_steps (ex - sx) (ey - sy) : Nat) : ℚ))))
                (pyInt (interp (sy : ℚ) (((ey - sy : Int)) : ℚ)
                  ((step : ℚ) / ((recomputed_steps (ex - sx) (ey - sy) : Nat) : ℚ))))]) := by
      apply List.flatMap_congr
      intro i _
      simp [Effect.isSetPos, List.filter]
    rw [h1, range_flatMap_singleton (fun (step : Nat) =>
      Effect.setPos
        (pyInt (interp (sx : ℚ) (((ex - sx : Int)) : ℚ)
          ((step : ℚ) / ((recomputed_steps (ex - sx) (ey - sy) : Nat) : ℚ))))
        (pyInt (interp (sy : ℚ) (((ey - sy : Int)) : ℚ)
          ((step : ℚ) / ((recomputed_steps (ex - sx) (ey - sy) : Nat) : ℚ)))))]
    rfl

/-- Witness for the C8 theorem: monotonicity applied at one quarter versus
three quarters, and symmetry applied at one quarter. -/
theorem ease_in_out_quad_props_witness :
    ease_in_out_quad (1/4) ≤ ease_in_out_quad (3/4) ∧
    ease_in_out_quad (1 - 1/4) = 1 - ease_in_out_quad (1/4) :=
  ⟨ease_in_out_quad_props.2.2.1 (1/4) (3/4) (by norm_num) (by norm_num) (by norm_num),
   ease_in_out_quad_props.2.2.2.1 (1/4) (by norm_num) (by norm_num)⟩

lemma addDelaysFrom_payload {α : Type} :
    ∀ (es : List (TimedEvent α)) (prev : ℚ),
      (addDelaysFrom prev es).map SavedEvent.payload = es.map TimedEvent.payload := by
  intro es
  induction es with
  | nil => intro prev; rfl
  | cons e es ih => intro prev; simp [addDelaysFrom, ih]

lemma addDelaysFrom_delay {α : Type} :
    ∀ (es : List (TimedEvent α)) (prevEv : TimedEvent α),
      (addDelaysFrom prevEv.time es).map SavedEvent.delay
        = ((prevEv :: es).zip es).map (fun q => q.2.time - q.1.time) := by
  intro es
  induction es with
  | nil => intro prevEv; rfl
  | cons e es ih => intro prevEv; simp [addDelaysFrom, List.zip, ih]

lemma addDelaysFrom_shift {α : Type} (c : ℚ) :
    ∀ (es : List (TimedEvent α)) (prev : ℚ),
      addDelaysFrom (prev + c) (es.map (fun e => ⟨e.payload, e.time + c⟩))
        = addDelaysFrom prev es := by
  intro es
  induction es with
  | nil => intro prev; rfl
  | cons e es ih =>
      intro prev
      simp only [List.map_cons, addDelaysFrom, ih]
      congr 1
      simp

/-- C9: the recorder's post-processing keeps the payloads in order, assigns
the first event delay 0, assigns every later event the difference between its
capture time and the previous event's capture time, and is invariant under
shifting all absolute capture times — the persisted form retains no
wall-clock information. -/
theorem record_postprocess_delays {α : Type} (evs : List (TimedEvent α)) :
    (postprocess_events evs).length = evs.length ∧
    (postprocess_events evs).map SavedEvent.payload = evs.map TimedEvent.payload ∧
    (∀ e es, evs = e :: es →
      (postprocess_events evs).map SavedEvent.delay
        = 0 :: ((evs.zip es).map (fun q => q.2.time - q.1.time))) ∧
    (∀ c : ℚ, postprocess_events (evs.map (fun e => ⟨e.payload, e.time + c⟩))
        = postprocess_events evs) := by
  refine ⟨?_, ?_, ?_, ?_⟩
  · have h := addDelaysFrom_payload (α := α)
    cases evs with
    | nil => rfl
    | cons e es =>
        have := congrArg List.length (h es e.time)
        simp only [List.length_map] at this
        simp [postprocess_events, this]
  · cases evs with
    | nil => rfl
    | cons e es => simp [postprocess_events, addDelaysFrom_payload]
  · intro e es hevs
    subst hevs
    simp [postprocess_events, addDelaysFrom_delay es e]
  · intro c
    cases evs with
    | nil => rfl
    | cons e es => simp [postprocess_events, addDelaysFrom_shift c es e.time]

/-- Witness for the C9 theorem on a concrete two-event record: delays are 0
and the 7-unit gap between capture times 3 and 10. -/
theorem record_postprocess_delays_witness :
    (postprocess_events
      [(⟨"keyA", (3 : ℚ)⟩ : TimedEvent String), ⟨"keyB", 10⟩]).map SavedEvent.delay
      = [0, 7] := by
  have h := (record_postprocess_delays
    [(⟨"keyA", (3 : ℚ)⟩ : TimedEvent String), ⟨"keyB", 10⟩]).2.2.1
    ⟨"keyA", 3⟩ [⟨"keyB", 10⟩] rfl
  rw [h]
  norm_num

/-- C2 counterexample: one malformed numeric argument (`move abc 10`) makes
the whole parse fail with an uncaught `ValueError` — the following well-formed
`click` command is lost, so the parser does not "never fail the whole parse
because of one bad command". -/
theorem parse_simple_sequence_abort_cex :
    parse_simple_sequence "move abc 10; click"
      = Except.error "ValueError: invalid literal for int() with base 10: abc" := by
  rfl

/-- C2 (amended): a command with an unrecognised verb is skipped silently —
the parse result is identical to the parse without that command, so no
diagnostic is recorded — and parsing continues with the remaining commands;
a command with a malformed numeric argument raises an uncaught `ValueError`
that aborts the entire parse and yields no actions at all. -/
theorem parse_simple_sequence_skip_and_abort :
    (∀ rest, parseCommands ("badverb 1 2" :: rest) = parseCommands rest) ∧
    (∀ rest, parseCommands ("move abc 10" :: rest)
        = Except.error "ValueError: invalid literal for int() with base 10: abc") ∧
    parse_simple_sequence "badverb 1 2; click left"
      = Except.ok [PAction.click "left" 1] := by
  refine ⟨?_, ?_, rfl⟩
  · intro rest
    have h0 : parseCommands ("badverb 1 2" :: rest)
        = Except.bind (parseCommands rest) (fun r => Except.ok ([] ++ r)) := rfl
    rw [h0]
    cases parseCommands rest <;> rfl
  · intro rest
    rfl

/-- C3 (code bug): `move_mouse` accepts `check_bounds` — documented in its own
docstring as "Whether to check screen boundaries" and wired to the CLI flag
`--ignore-bounds` — but the body never reads it: the trace is identical for
`check_bounds` true and false, and a far out-of-bounds move on a single
1920x1080 monitor is performed unconditionally, with no prompt or
confirmation of any kind. -/
theorem move_mouse_ignores_check_bounds :
    (∀ (startPos : Int × Int) (monitors : List Monitor) (x y : Int) (delay : ℚ)
       (cb cb' : Bool) (smooth : Bool) (smooth_duration : ℚ) (smooth_steps : Nat)
       (click : Option String) (click_count : Nat) (click_interval : ℚ)
       (double_click : Bool) (click_delay : ℚ) (drag_to : Option (Int × Int))
       (drag_smooth : Bool) (cbd cad : Bool) (monitor_index : Option Int),
      move_mouse startPos monitors x y delay cb smooth smooth_duration
          smooth_steps click click_count click_interval double_click click_delay
          drag_to drag_smooth cbd cad monitor_index
        = move_mouse startPos monitors x y delay cb' smooth smooth_duration
          smooth_steps click click_count click_interval double_click click_delay
          drag_to drag_smooth cbd cad monitor_index) ∧
    move_mouse (0, 0) [⟨0, 0, 0, 1920, 1080, true⟩] 99999 99999 0 true false 1
        100 none 1 (1/10) false 0 none true false false none
      = [Effect.setPos 99999 99999] :=
  ⟨by intros; rfl, rfl⟩

lemma execAction_shift (env : Env) (i : Nat) (a : EAction) (held : HeldDict) :
    execAction (shiftEnv env) i a held = execAction env (i + 1) a held := by
  cases a <;> rfl

lemma runFrom_shift (env : Env) :
    ∀ (acts : List SeqAction) (i total : Nat) (held : HeldDict),
      runFrom (shiftEnv env) acts i total held
        = runFrom env acts (i + 1) (total + 1) held := by
  intro acts
  induction acts with
  | nil => intro i total held; rfl
  | cons a rest ih =>
      intro i total held
      rw [runFrom, runFrom]
      rw [show (shiftEnv env).interrupt i = env.interrupt (i + 1) from rfl]
      rw [execAction_shift]
      have hcond : (i + 1 < total + 1 - 1) = (i < total - 1) := by
        rw [eq_iff_iff]
        omega
      simp only [hcond, ih]

lemma faawGo_all_fail_pos (found : Nat → Bool) (w : ℚ)
    (hf : ∀ k, found k = false) :
    ∀ (fuel attempt : Nat), 0 < attempt →
      faawGo found w attempt fuel = (List.replicate fuel (Effect.sleep 1), false) := by
  intro fuel
  induction fuel with
  | zero => intro attempt _; rfl
  | succ fuel ih =>
      intro attempt ha
      rw [faawGo, hf attempt]
      simp only [Bool.false_eq_true, if_false, if_pos ha]
      rw [ih (attempt + 1) (by omega)]
      simp [List.replicate_succ]

lemma faawGo_all_fail_zero (found : Nat → Bool) (w : ℚ)
    (hf : ∀ k, found k = false) (fuel : Nat) :
    faawGo found w 0 fuel = (List.replicate (fuel - 1) (Effect.sleep 1), false) := by
  cases fuel with
  | zero => rfl
  | succ fuel =>
      rw [faawGo, hf 0]
      simp only [Nat.lt_irrefl, if_neg, Bool.false_eq_true, if_false]
      rw [faawGo_all_fail_pos found w hf fuel 1 (by omega)]
      simp

/-- C4: with every lookup attempt failing, a window action at the head of a
sequence behaves as specified: with `required` (i.e. `not_required = false`),
after `retry_count` attempts separated by fixed 1-second backoff sleeps the
whole run ends with `sys.exit(1)` and no subsequent action contributes
anything to the trace; with `required = false`, the failure is non-fatal and
execution continues with the remaining actions exactly as if they ran on
their own. -/
theorem window_required_fatal_optional_continues (env : Env)
    (t p : Option String) (w : ℚ) (rc : Nat) (post : List SeqAction)
    (hvalid : (truthyStr t || truthyStr p) = true)
    (hint : env.interrupt 0 = false)
    (hfail : ∀ k, env.winFound 0 k = false) :
    perform_sequence env (⟨EAction.window t p w false rc, 0⟩ :: post)
      = (List.replicate (rc - 1) (Effect.sleep 1), Outcome.fatalExit) ∧
    perform_sequence env (⟨EAction.window t p w true rc, 0⟩ :: post)
      = (List.replicate (rc - 1) (Effect.sleep 1)
          ++ (perform_sequence (shiftEnv env) post).1,
         (perform_sequence (shiftEnv env) post).2) := by
  have hfw : find_and_activate_window (env.winFound 0) w true rc
      = (List.replicate (rc - 1) (Effect.sleep 1), WinResult.fatalExit) := by
    unfold find_and_activate_window
    rw [faawGo_all_fail_zero (env.winFound 0) w hfail rc]
    simp
  have hfw2 : find_and_activate_window (env.winFound 0) w false rc
      = (List.replicate (rc - 1) (Effect.sleep 1), WinResult.notFound) := by
    unfold find_and_activate_window
    rw [faawGo_all_fail_zero (env.winFound 0) w hfail rc]
    simp
  constructor
  · unfold perform_sequence
    rw [runFrom]
    simp only [hint, Bool.false_eq_true, if_false, validate_sequence_action,
      hvalid, if_true, execAction, Bool.not_false, hfw]
  · unfold perform_sequence
    rw [runFrom]
    simp only [hint, Bool.false_eq_true, if_false, validate_sequence_action,
      hvalid, if_true, execAction, Bool.not_true, hfw2]
    have hlen : (⟨EAction.window t p w true rc, (0 : ℚ)⟩ :: post).length
        = post.length + 1 := by simp
    rw [hlen]
    rw [show runFrom env post (0 + 1) (post.length + 1) ([] : HeldDict)
        = runFrom (shiftEnv env) post 0 post.length [] from
      (runFrom_shift env post 0 post.length []).symm]
    rcases hr2 : runFrom (shiftEnv env) post 0 post.length [] with ⟨tr2, held2, o2⟩
    cases o2 <;> simp [List.append_assoc]

/-- Witness for the C4 theorem with 3 retries and a trailing 2-second wait
action: the required variant exits fatally after two backoff sleeps and never
reaches the wait; the optional variant continues and performs the wait. -/
theorem window_required_fatal_optional_continues_witness :
    perform_sequence wEnvC4
        [⟨EAction.window (some "X") none 1 false 3, 0⟩, ⟨EAction.wait 2, 0⟩]
      = ([Effect.sleep 1, Effect.sleep 1], Outcome.fatalExit) ∧
    perform_sequence wEnvC4
        [⟨EAction.window (some "X") none 1 true 3, 0⟩, ⟨EAction.wait 2, 0⟩]
      = ([Effect.sleep 1, Effect.sleep 1, Effect.sleep 2], Outcome.completed) := by
  have h := window_required_fatal_optional_continues wEnvC4 (some "X") none 1 3
    [⟨EAction.wait 2, 0⟩] rfl rfl (fun _ => rfl)
  refine ⟨?_, ?_⟩
  · rw [h.1]
    rfl
  · rw [h.2]
    rfl

lemma execAction_valid_held (env : Env) (i : Nat) (a : EAction) (held : HeldDict)
    (h : validate_sequence_action a = true) :
    (execAction env i a held).2.1 = held := by
  cases a with
  | window t p w nr rc =>
      simp only [execAction]
      cases hr : (find_and_activate_window (env.winFound i) w (!nr) rc).2 <;>
        simp [hr]
  | hold_key key => simp [validate_sequence_action] at h
  | release_key key all => simp [validate_sequence_action] at h
  | move x y delay cb smooth sd ss click cc ci dc cd dt ds cbd cad mi => rfl
  | click b c iv d da => rfl
  | scroll am st iv da => rfl
  | key k mods c iv da => rfl
  | typeText t iv da => rfl
  | wait s => rfl

lemma runFrom_held_const (env : Env) :
    ∀ (acts : List SeqAction) (i total : Nat) (held : HeldDict),
      (runFrom env acts i total held).2.1 = held := by
  intro acts
  induction acts with
  | nil => intro i total held; rfl
  | cons a rest ih =>
      intro i total held
      rw [runFrom]
      by_cases hint : env.interrupt i = true
      · simp [hint]
      · by_cases hval : validate_sequence_action a.act = true
        · simp only [hint, Bool.false_eq_true, if_false, hval, if_true]
          rcases hE : execAction env i a.act held with ⟨tr, held2, sr⟩
          have h2 : held2 = held := by
            have hv := execAction_valid_held env i a.act held hval
            rw [hE] at hv
            exact hv
          cases sr
          · rw [h2]
            exact ih (i + 1) total held
          · exact h2
          · exact h2
        · simp only [hint, Bool.false_eq_true, if_false, hval]
          exact ih (i + 1) total held

/-- C1 counterexample: a sequence that holds `ctrl` and never releases it
produces no effects at all — `validate_sequence_action` has no entry for
`hold_key` and raises `ValueError("Unknown action type")` (src/a_.py lines
893-905), which `perform_sequence` catches and skips (lines 781-785) — so
`ctrl` is never pressed, never placed in the held-key set, and no exit path
force-releases it or logs "Released ctrl key"; a matching `release_key` is
skipped the same way.  This contradicts the claimed force-release-with-log
of the unmatched held key. -/
theorem perform_sequence_hold_key_skipped :
    perform_sequence cexEnvC1 [⟨EAction.hold_key (some "ctrl"), 0⟩]
      = ([], Outcome.completed) ∧
    (perform_sequence cexEnvC1
        [⟨EAction.hold_key (some "ctrl"), 0⟩,
         ⟨EAction.release_key (some "ctrl") false, 0⟩]).1.countP
      (fun e => e == Effect.log (releasedMsg "ctrl")) = 0 :=
  ⟨rfl, rfl⟩

/-- C1 (amended): `perform_sequence` never places any key in its held-key
set: `hold_key` and `release_key` actions fail validation as unknown action
types and are skipped before their dispatch branches at src/a_.py lines
800-817 can run, so the held-key dict is unchanged across any run — starting
empty, it stays empty — and the end-of-sequence cleanup at lines 886-888
contributes nothing to the trace on any outcome.  The hold/release/cleanup
machinery of `perform_sequence` is dead code. -/
theorem perform_sequence_never_holds_keys (env : Env) (acts : List SeqAction) :
    (∀ k, validate_sequence_action (EAction.hold_key k) = false) ∧
    (∀ k b, validate_sequence_action (EAction.release_key k b) = false) ∧
    (∀ i total held, (runFrom env acts i total held).2.1 = held) ∧
    (perform_sequence env acts).1 = (runFrom env acts 0 acts.length []).1 := by
  refine ⟨fun k => rfl, fun k b => rfl,
    fun i total held => runFrom_held_const env acts i total held, ?_⟩
  unfold perform_sequence
  rcases hr : runFrom env acts 0 acts.length [] with ⟨tr, held, o⟩
  have hh : held = [] := by
    have h0 := runFrom_held_const env acts 0 acts.length []
    rw [hr] at h0
    exact h0
  subst hh
  cases o <;> simp [cleanupHeld]
